import Mathlib

/-!
Verification of the AgentBuilder permission-gated tool execution core.

The development shallowly embeds the data model and the operations of the
repository: the tool-permission schemas (`tool.schema`), the QuickJS code
sandbox (`runCodeBlock`), the runner IPC handlers (`runner.ipc`), the audit
log (`audit.repo`), the agents repository (`agents.repo`) and the settings
repository with its IPC handler (`settings.repo` / `settings.ipc`).
-/

namespace AgentBuilder

/-! ## A model of JSON values

JavaScript values that cross `JSON.stringify` / `JSON.parse` are modelled by
an inductive `Json` type.  JS numbers are modelled as integers: none of the
verified properties depends on non-integral numerics.  Serialized forms are
modelled at the `Json`-value level; `Json.stringify` mirrors the output shape
of `JSON.stringify` for the values we evaluate concretely. -/

inductive Json where
  | null : Json
  | bool (b : Bool) : Json
  | num (n : Int) : Json
  | str (s : String) : Json
  | arr (elems : List Json) : Json
  | obj (fields : List (String × Json)) : Json

/-- JSON string escaping: quote and backslash, as produced by
`JSON.stringify` on the strings appearing in this development. -/
def escapeJsonChar (c : Char) : String :=
  if c = '\"' then "\\\"" else if c = '\\' then "\\\\" else String.singleton c

def escapeJson (s : String) : String :=
  String.join (s.toList.map escapeJsonChar)

mutual

def Json.stringify : Json → String
  | .null => "null"
  | .bool true => "true"
  | .bool false => "false"
  | .num n => toString n
  | .str s => "\"" ++ escapeJson s ++ "\""
  | .arr elems => "[" ++ stringifyArr elems ++ "]"
  | .obj fields => "\x7b" ++ stringifyObj fields ++ "\x7d"

def stringifyArr : List Json → String
  | [] => ""
  | [j] => Json.stringify j
  | j :: rest => Json.stringify j ++ "," ++ stringifyArr rest

def stringifyObj : List (String × Json) → String
  | [] => ""
  | [(k, v)] => "\"" ++ escapeJson k ++ "\":" ++ Json.stringify v
  | (k, v) :: rest =>
      "\"" ++ escapeJson k ++ "\":" ++ Json.stringify v ++ "," ++ stringifyObj rest

end

/-- Field lookup on a JSON object's field list (property access order:
first binding wins, as produced by our encoders). -/
def lookupField (fields : List (String × Json)) (key : String) : Option Json :=
  (fields.find? (fun f => f.1 == key)).map (fun f => f.2)

/-- Object spread override `\x7b...parsed, key: value\x7d`: replaces the
binding for `key` if present, otherwise appends it. -/
def overrideField (fields : List (String × Json)) (key : String) (v : Json) :
    List (String × Json) :=
  if (fields.find? (fun f => f.1 == key)).isSome then
    fields.map (fun f => if f.1 == key then (key, v) else f)
  else
    fields ++ [(key, v)]

/-! ## Permission model

Embedding of `src/shared/schemas/tool.schema.ts` (part_005): the four
sub-policies, their combination, and `DEFAULT_TOOL_PERMISSIONS`. -/

inductive FsAccess where
  | read : FsAccess
  | readWrite : FsAccess
deriving DecidableEq

structure FileSystemPermission where
  enabled : Bool
  access : FsAccess
  allowedPaths : List String
  deniedPaths : List String
  maxFileSizeBytes : Nat
deriving DecidableEq

inductive HttpMethod where
  | GET | POST | PUT | PATCH | DELETE | HEAD
deriving DecidableEq

structure HttpPermission where
  enabled : Bool
  allowedDomains : List String
  blockedDomains : List String
  allowedMethods : List HttpMethod
  rateLimitPerMinute : Nat
  timeoutMs : Nat
  followRedirects : Bool
  maxResponseBytes : Nat
deriving DecidableEq

structure ShellPermission where
  enabled : Bool
  allowedCommands : List String
  blockedPatterns : List String
  workingDirectory : Option String
  timeoutMs : Nat
  requiresConfirmation : Bool
  env : List (String × String)
deriving DecidableEq

structure CodeExecPermission where
  enabled : Bool
  memoryLimitMb : Nat
  timeLimitMs : Nat
  networkAccess : Bool
  allowedModules : List String
deriving DecidableEq

structure ToolPermissions where
  filesystem : FileSystemPermission
  http : HttpPermission
  shell : ShellPermission
  codeExec : CodeExecPermission
deriving DecidableEq

/-- `DEFAULT_TOOL_PERMISSIONS` from `tool.schema.ts`. -/
def DEFAULT_TOOL_PERMISSIONS : ToolPermissions :=
  { filesystem :=
      { enabled := false
        access := .read
        allowedPaths := []
        deniedPaths := []
        maxFileSizeBytes := 10 * 1024 * 1024 }
    http :=
      { enabled := false
        allowedDomains := []
        blockedDomains := []
        allowedMethods := [.GET]
        rateLimitPerMinute := 30
        timeoutMs := 10000
        followRedirects := true
        maxResponseBytes := 5 * 1024 * 1024 }
    shell :=
      { enabled := false
        allowedCommands := []
        blockedPatterns := ["rm\\s+-rf", "sudo", "> /dev", "chmod 777", "curl.*\\|.*sh"]
        workingDirectory := none
        timeoutMs := 30000
        requiresConfirmation := true
        env := [] }
    codeExec :=
      { enabled := false
        memoryLimitMb := 128
        timeLimitMs := 10000
        networkAccess := false
        allowedModules := [] } }

/-! ## Policy Evaluator (spec-modelled)

The repository contains only the permission schemas and a placeholder run
loop; the Policy Evaluator itself is not under `src/`. -/

/-- A requested side-effecting action: the tagged union of spec section 3. -/
inductive ActionRequest where
  | filesystem (write : Bool) (path : String) (sizeBytes : Nat) : ActionRequest
  | http (host : String) (method : HttpMethod) : ActionRequest
  | shell (commandLine : String) : ActionRequest
  | codeExec : ActionRequest

/-- The Policy Evaluator's decision for a single requested action. -/
inductive Verdict where
  | allow : Verdict
  | deny (reason : String) : Verdict
  | requireConfirmation (description : String) : Verdict
deriving DecidableEq

/-- External matching facilities the evaluator relies on: glob matching
(micromatch), regex matching, private/loopback address classification, and
the current state of the per-policy rolling rate-limit counter.  The
verified properties hold for every choice of these. -/
structure MatchFacilities where
  globMatch : String → String → Bool
  regexMatch : String → String → Bool
  isPrivateHost : String → Bool
  rateLimitExceeded : Bool

/-- Modelled from the spec: the Policy Evaluator of spec section 4.1
(`evaluate(request, policy) → Verdict`) is absent from `src/` — only the
permission schemas (`tool.schema.ts`) and a placeholder runner exist — so it
is modelled from the spec's words.  For each request kind: the relevant
sub-policy's `enabled` is checked first (false → `Deny("tool disabled")`);
filesystem checks deny-globs before allow-globs, requires `read-write` for
writes, and checks size against the cap; HTTP denies private hosts
unconditionally, then blocked domains, allowed domains, method, and the
rate limit; shell requires the first token verbatim in the allow-list,
denies on any blocked-pattern match, and yields `RequireConfirmation` when
`requiresConfirmation` is set; codeExec only gates sandbox instantiation. -/
def evaluate (m : MatchFacilities) (req : ActionRequest) (policy : ToolPermissions) :
    Verdict :=
  match req with
  | .filesystem write path sizeBytes =>
      let fs := policy.filesystem
      if fs.enabled = false then .deny "tool disabled"
      else if fs.deniedPaths.any (fun g => m.globMatch g path) then .deny "path denied"
      else if (fs.allowedPaths.any (fun g => m.globMatch g path)) = false then
        .deny "path not allowed"
      else if write && fs.access = .read then .deny "write access not granted"
      else if fs.maxFileSizeBytes < sizeBytes then .deny "file too large"
      else .allow
  | .http host method =>
      let hp := policy.http
      if hp.enabled = false then .deny "tool disabled"
      else if m.isPrivateHost host then .deny "SSRF blocked"
      else if hp.blockedDomains.any (fun g => m.globMatch g host) then .deny "domain blocked"
      else if (hp.allowedDomains.any (fun g => m.globMatch g host)) = false then
        .deny "domain not allowed"
      else if (hp.allowedMethods.contains method) = false then .deny "method not allowed"
      else if m.rateLimitExceeded then .deny "rate limit"
      else .allow
  | .shell commandLine =>
      let sp := policy.shell
      if sp.enabled = false then .deny "tool disabled"
      else if (sp.allowedCommands.contains ((commandLine.splitOn " ").headD "")) = false then
        .deny "command not allowed"
      else if sp.blockedPatterns.any (fun pat => m.regexMatch pat commandLine) then
        .deny "blocked pattern"
      else if sp.requiresConfirmation then .requireConfirmation commandLine
      else .allow
  | .codeExec =>
      if policy.codeExec.enabled = false then .deny "tool disabled"
      else .allow

/-- C1: for every permission model in which all four sub-policies have
`enabled = false`, policy evaluation of every `ActionRequest` of every kind
returns `Deny` with reason "tool disabled", for every choice of matching
facilities. -/
theorem all_disabled_evaluates_to_deny (m : MatchFacilities) (policy : ToolPermissions)
    (req : ActionRequest)
    (hfs : policy.filesystem.enabled = false)
    (hhttp : policy.http.enabled = false)
    (hshell : policy.shell.enabled = false)
    (hcode : policy.codeExec.enabled = false) :
    evaluate m req policy = .deny "tool disabled" := by
  cases req <;> simp [evaluate, hfs, hhttp, hshell, hcode]

/-- Concrete instantiation of `all_disabled_evaluates_to_deny`: the default
permission model (all sub-policies disabled) denies a shell request. -/
theorem all_disabled_evaluates_to_deny_witness :
    DEFAULT_TOOL_PERMISSIONS.filesystem.enabled = false ∧
    DEFAULT_TOOL_PERMISSIONS.http.enabled = false ∧
    DEFAULT_TOOL_PERMISSIONS.shell.enabled = false ∧
    DEFAULT_TOOL_PERMISSIONS.codeExec.enabled = false ∧
    evaluate ⟨fun _ _ => true, fun _ _ => true, fun _ => false, false⟩
      (.shell "git status") DEFAULT_TOOL_PERMISSIONS = .deny "tool disabled" :=
  ⟨rfl, rfl, rfl, rfl,
    all_disabled_evaluates_to_deny ⟨fun _ _ => true, fun _ _ => true, fun _ => false, false⟩
      DEFAULT_TOOL_PERMISSIONS (.shell "git status") rfl rfl rfl rfl⟩

/-! ## Isolated code runtime

Embedding of `runCodeBlock` (the QuickJS sandbox wrapper in `src/main`).
The QuickJS engine is external: it is modelled as a trace of interrupt
checks.  `code n` is the completion status of `evalCode` after `n` calls to
the interrupt handler (`none` = still executing), `clock n` is `Date.now()`
at the `n`-th call, `start` is `Date.now()` when the deadline was computed,
and `hostFault` models anything thrown inside the outer `try` (engine
crash, import failure) which the outer `catch` normalizes. -/

structure SandboxResult where
  success : Bool
  result : Option Json := none
  error : Option String := none
  timedOut : Option Bool := none

inductive EvalOutcome where
  | ok (v : Json) : EvalOutcome
  | jsError (msg : String) : EvalOutcome

inductive EngineRun where
  | interrupted : EngineRun
  | completed (o : EvalOutcome) : EngineRun

structure EngineTrace where
  start : Nat
  clock : Nat → Nat
  code : Nat → Option EvalOutcome
  hostFault : Option String

/-- The engine's bounded execution: starting from check index `k`, run until
the interrupt handler fires (`Date.now() > deadline`, mirroring the handler
installed by `runCodeBlock`, which sets `timedOut` and interrupts) or
`evalCode` completes.  `fuel` bounds the search so the model is executable;
the theorems exhibit sufficient fuel.  Interrupt priority over completion at
the same check mirrors the source checking `timedOut` first. -/
def engineSearch (t : EngineTrace) (deadline : Nat) : Nat → Nat → Option (Nat × EngineRun)
  | 0, _ => none
  | fuel + 1, n =>
      if deadline < t.clock n then some (n, .interrupted)
      else
        match t.code n with
        | some o => some (n, .completed o)
        | none => engineSearch t deadline fuel (n + 1)

/-- The tail of `runCodeBlock`: `timedOut` is checked first, then
`runError`, then the success path. -/
def normalizeRun (limits : CodeExecPermission) : EngineRun → SandboxResult
  | .interrupted =>
      { success := false, timedOut := some true,
        error := some ("Execution timed out after " ++ toString limits.timeLimitMs ++ "ms") }
  | .completed (.jsError m) => { success := false, error := some m }
  | .completed (.ok v) => { success := true, result := some v }

/-- `runCodeBlock(code, input, ctx, limits)`: host-level exceptions are
caught by the outer `catch` and returned as `\x7bsuccess: false, error\x7d`;
otherwise the engine runs under the deadline `start + timeLimitMs` and the
outcome is normalized. -/
def runCodeBlock (limits : CodeExecPermission) (t : EngineTrace) (fuel : Nat) :
    Option SandboxResult :=
  match t.hostFault with
  | some msg => some { success := false, error := some msg }
  | none =>
      (engineSearch t (t.start + limits.timeLimitMs) fuel 0).map
        (fun p => normalizeRun limits p.2)

theorem engineSearch_finds_first_interrupt (t : EngineTrace) (deadline n : Nat)
    (hn : deadline < t.clock n)
    (hloop : ∀ m, t.code m = none) :
    ∀ fuel k, k ≤ n → n < k + fuel →
      (∀ m, k ≤ m → m < n → t.clock m ≤ deadline) →
      engineSearch t deadline fuel k = some (n, .interrupted) := by
  intro fuel
  induction fuel with
  | zero => intro k hk hfuel _; omega
  | succ fuel ih =>
      intro k hk hfuel hbelow
      by_cases hkn : k = n
      · subst hkn
        simp [engineSearch, hn]
      · have hklt : k < n := lt_of_le_of_ne hk hkn
        have hcl : ¬ deadline < t.clock k := not_lt.mpr (hbelow k le_rfl hklt)
        simp only [engineSearch, if_neg hcl, hloop k]
        exact ih (k + 1) hklt (by omega) (fun m hm hmn => hbelow m (by omega) hmn)

/-- C2: for code whose execution never terminates on its own (every
interrupt check finds it still running) and any limits, `runCodeBlock`
terminates — fuel `n + 1` suffices where `n` is the first interrupt check
past the wall-clock deadline `start + timeLimitMs` — and returns
`success = false`, `timedOut = true` with the timeout message.  Halting at
the first check past the deadline is the "timeLimitMs plus bounded
overhead" bound; the host staying responsive is the model returning a value
at all. -/
theorem infinite_loop_times_out (limits : CodeExecPermission) (t : EngineTrace) (n : Nat)
    (hfault : t.hostFault = none)
    (hloop : ∀ m, t.code m = none)
    (hn : t.start + limits.timeLimitMs < t.clock n)
    (hfirst : ∀ m, m < n → t.clock m ≤ t.start + limits.timeLimitMs) :
    runCodeBlock limits t (n + 1) =
      some { success := false, timedOut := some true,
             error := some ("Execution timed out after " ++
               toString limits.timeLimitMs ++ "ms") } := by
  have h := engineSearch_finds_first_interrupt t (t.start + limits.timeLimitMs) n hn hloop
    (n + 1) 0 (Nat.zero_le n) (by omega) (fun m _ hmn => hfirst m hmn)
  simp [runCodeBlock, hfault, h, normalizeRun]

/-- An engine trace for code that loops forever: never completes, the clock
advancing by one per interrupt check. -/
def loopTrace : EngineTrace :=
  { start := 0, clock := fun k => k, code := fun _ => none, hostFault := none }

/-- Code-execution limits with a 5 ms wall-clock ceiling. -/
def smallLimits : CodeExecPermission :=
  { enabled := true, memoryLimitMb := 128, timeLimitMs := 5, networkAccess := false,
    allowedModules := [] }

/-- Concrete instantiation of `infinite_loop_times_out`: an infinite loop
under a 5 ms limit is interrupted at the sixth check and reported as a
timeout. -/
theorem infinite_loop_times_out_witness :
    loopTrace.hostFault = none ∧ (∀ m, loopTrace.code m = none) ∧
    loopTrace.start + smallLimits.timeLimitMs < loopTrace.clock 6 ∧
    (∀ m, m < 6 → loopTrace.clock m ≤ loopTrace.start + smallLimits.timeLimitMs) ∧
    runCodeBlock smallLimits loopTrace 7 =
      some { success := false, timedOut := some true,
             error := some ("Execution timed out after " ++
               toString smallLimits.timeLimitMs ++ "ms") } :=
  ⟨rfl, fun _ => rfl, by decide, by decide,
    infinite_loop_times_out smallLimits loopTrace 6 rfl (fun _ => rfl) (by decide)
      (by decide)⟩

/-- C3: `runCodeBlock` never throws to its caller — it is a total function
into `SandboxResult`, and every returned failure carries an error message:
each result has `success = true` or `success = false` with `error` set.
This covers thrown exceptions and unsupported syntax (the `jsError` path),
the timeout path, and engine/host crashes (the `hostFault` path). -/
theorem runCodeBlock_normalizes_failures (limits : CodeExecPermission) (t : EngineTrace)
    (fuel : Nat) (r : SandboxResult) (h : runCodeBlock limits t fuel = some r) :
    r.success = true ∨ (r.success = false ∧ r.error.isSome = true) := by
  unfold runCodeBlock at h
  cases hf : t.hostFault with
  | some msg =>
      rw [hf] at h
      injection h with h
      subst h
      exact Or.inr ⟨rfl, rfl⟩
  | none =>
      rw [hf] at h
      rcases Option.map_eq_some'.mp h with ⟨p, _, hr⟩
      subst hr
      rcases p with ⟨n, run⟩
      cases run with
      | interrupted => exact Or.inr ⟨rfl, rfl⟩
      | completed o =>
          cases o with
          | ok v => exact Or.inl rfl
          | jsError m => exact Or.inr ⟨rfl, rfl⟩

/-- An engine trace in which the host-level `try` block throws (e.g. the
engine import crashes). -/
def crashTrace : EngineTrace :=
  { start := 0, clock := fun k => k, code := fun _ => none,
    hostFault := some "TypeError: engine crashed" }

/-- Concrete instantiation of `runCodeBlock_normalizes_failures`: a host
crash is returned as a failed `SandboxResult`, not thrown. -/
theorem runCodeBlock_normalizes_failures_witness :
    runCodeBlock smallLimits crashTrace 0 =
      some { success := false, error := some "TypeError: engine crashed" } ∧
    (({ success := false, error := some "TypeError: engine crashed" } : SandboxResult).success
        = true ∨
      (({ success := false, error := some "TypeError: engine crashed" } : SandboxResult).success
          = false ∧
        ({ success := false,
            error := some "TypeError: engine crashed" } : SandboxResult).error.isSome = true)) :=
  ⟨rfl, runCodeBlock_normalizes_failures smallLimits crashTrace 0 _ rfl⟩

/-! ## The evaluation harness

`runCodeBlock` splices the user's code into a harness that executes the
code's top-level statements first and only afterwards checks
`typeof run !== 'function'`.  A top-level statement is modelled as an
observable effect, a thrown error, or the declaration of the entry function
`run` (whose invocation produces a given outcome).  Function-declaration
hoisting is not modelled; the verified properties do not depend on it. -/

inductive Stmt where
  | effect (name : String) : Stmt
  | throwing (msg : String) : Stmt
  | defineRun (behavior : EvalOutcome) : Stmt

def Stmt.definesRun : Stmt → Bool
  | .defineRun _ => true
  | _ => false

def Stmt.throwsAtTopLevel : Stmt → Bool
  | .throwing _ => true
  | _ => false

/-- Execute the top-level statements in order: returns the effects
performed, the first thrown error if any (aborting the rest), and the last
declaration of `run` if any. -/
def execStmts : List Stmt → List String × Option String × Option EvalOutcome
  | [] => ([], none, none)
  | .effect e :: rest =>
      let r := execStmts rest
      (e :: r.1, r.2.1, r.2.2)
  | .throwing m :: _ => ([], some m, none)
  | .defineRun b :: rest =>
      let r := execStmts rest
      (r.1, r.2.1, some (r.2.2.getD b))

def MISSING_RUN_ERROR : String := "Code block must define a function named \"run\""

/-- The harness built by `runCodeBlock`: execute the user's code, then
check for the entry function; if it is absent, throw the configuration
error; otherwise call `run`. -/
def harnessEval (stmts : List Stmt) : List String × EvalOutcome :=
  let r := execStmts stmts
  match r.2.1 with
  | some m => (r.1, .jsError m)
  | none =>
      match r.2.2 with
      | none => (r.1, .jsError MISSING_RUN_ERROR)
      | some b => (r.1, b)

/-- `runCodeBlock` on source that the engine evaluates without timeout or
host fault: the harness outcome, normalized exactly as in the source. -/
def runCodeBlockOnSource (limits : CodeExecPermission) (stmts : List Stmt) : SandboxResult :=
  normalizeRun limits (.completed (harnessEval stmts).2)

/-- C5 counterexample: code consisting of a single effectful statement and
no declaration of `run`.  The statement executes (its effect is recorded)
before the missing-entry error is produced, refuting "no statement of the
user code runs when the entry function is absent". -/
theorem missing_entry_check_after_execution :
    Stmt.definesRun (Stmt.effect "mutateGlobalState") = false ∧
    (harnessEval [Stmt.effect "mutateGlobalState"]).1 = ["mutateGlobalState"] ∧
    (harnessEval [Stmt.effect "mutateGlobalState"]).2 = .jsError MISSING_RUN_ERROR :=
  ⟨rfl, rfl, rfl⟩

theorem execStmts_no_run (stmts : List Stmt)
    (hnorun : ∀ s ∈ stmts, s.definesRun = false)
    (hnothrow : ∀ s ∈ stmts, s.throwsAtTopLevel = false) :
    execStmts stmts =
      (stmts.filterMap (fun s => match s with | .effect e => some e | _ => none),
        none, none) := by
  induction stmts with
  | nil => rfl
  | cons s rest ih =>
      cases s with
      | effect e =>
          have := ih (fun x hx => hnorun x (List.mem_cons_of_mem _ hx))
            (fun x hx => hnothrow x (List.mem_cons_of_mem _ hx))
          simp [execStmts, this, List.filterMap]
      | throwing m =>
          have := hnothrow (Stmt.throwing m) (List.mem_cons_self _ _)
          simp [Stmt.throwsAtTopLevel] at this
      | defineRun b =>
          have := hnorun (Stmt.defineRun b) (List.mem_cons_self _ _)
          simp [Stmt.definesRun] at this

/-- C5 amended: for code whose top-level statements do not declare the
entry function `run` (and do not themselves throw), `runCodeBlock` reports
the configuration error "Code block must define a function named "run"" as
a failed result — but only after executing the code's top-level statements,
all of whose effects occur, not before any user code runs. -/
theorem missing_entry_reports_config_error (limits : CodeExecPermission)
    (stmts : List Stmt)
    (hnorun : ∀ s ∈ stmts, s.definesRun = false)
    (hnothrow : ∀ s ∈ stmts, s.throwsAtTopLevel = false) :
    (harnessEval stmts).1 =
      stmts.filterMap (fun s => match s with | .effect e => some e | _ => none) ∧
    runCodeBlockOnSource limits stmts =
      { success := false, error := some MISSING_RUN_ERROR } := by
  have h := execStmts_no_run stmts hnorun hnothrow
  constructor
  · simp [harnessEval, h]
  · simp [runCodeBlockOnSource, harnessEval, h, normalizeRun]

/-- Concrete instantiation of `missing_entry_reports_config_error`: a code
block that only logs, with no `run` declared, fails with the configuration
error after its statement executed. -/
theorem missing_entry_reports_config_error_witness :
    (∀ s ∈ [Stmt.effect "logSomething"], s.definesRun = false) ∧
    (∀ s ∈ [Stmt.effect "logSomething"], s.throwsAtTopLevel = false) ∧
    ((harnessEval [Stmt.effect "logSomething"]).1 =
      [Stmt.effect "logSomething"].filterMap
        (fun s => match s with | .effect e => some e | _ => none) ∧
    runCodeBlockOnSource smallLimits [Stmt.effect "logSomething"] =
      { success := false, error := some MISSING_RUN_ERROR }) :=
  ⟨by decide, by decide,
    missing_entry_reports_config_error smallLimits [Stmt.effect "logSomething"]
      (by decide) (by decide)⟩

/-! ## Runner IPC handlers

Embedding of `runner.ipc.ts`: the event trace emitted by the placeholder
`runAgent` (which streams the response character by character, checking the
run's `AbortController` signal before each chunk), the `RUNNER_STOP`
handler, and the `RUNNER_START` handler's interaction with the audit log.
The abort signal is modelled by the checkpoint index from which
`signal.aborted` is true: checkpoint `0` is the pre-stream check, and
checkpoint `i + 1` is the check before streaming chunk `i`. -/

inductive RunnerEventType where
  | runStarted | nodeStarted | nodeCompleted | nodeError | llmChunk | llmToolCall
  | toolCall | toolResult | requiresConfirmation | securityWarning | runCompleted
  | runError
deriving DecidableEq

def abortedAt (abortedFrom : Option Nat) (k : Nat) : Bool :=
  match abortedFrom with
  | none => false
  | some a => a ≤ k

/-- The events `runAgent` emits for a response of `respLen` characters: it
emits `node-started`, throws if already aborted (the `.catch` in the start
handler then emits `run-error`), streams `llm-chunk`s until the signal is
observed aborted, and then emits `node-completed` and `run-completed`
unconditionally — also when the loop exited because the run was aborted. -/
def runAgentEvents (respLen : Nat) (abortedFrom : Option Nat) : List RunnerEventType :=
  if abortedAt abortedFrom 0 then [.nodeStarted, .runError]
  else
    .nodeStarted ::
      ((((List.range respLen).takeWhile
          (fun i => !(abortedAt abortedFrom (i + 1)))).map
        (fun _ => RunnerEventType.llmChunk)) ++ [.nodeCompleted, .runCompleted])

structure RunState where
  aborted : Bool
  confirmations : List String

structure StopOutcome where
  found : Bool
  resolverCalls : List String
  remainingRun : Option RunState

/-- The `RUNNER_STOP` handler: aborts the controller and deletes the run
entry (with its `confirmations` map of stored resolvers); no stored
resolver is ever invoked, so pending confirmations are dropped, not
rejected. -/
def stopRun (run : Option RunState) : StopOutcome :=
  match run with
  | none => { found := false, resolverCalls := [], remainingRun := none }
  | some _ => { found := true, resolverCalls := [], remainingRun := none }

/-- C4 evaluated at the failing input: a run with one pending confirmation
is stopped during the streaming loop (signal aborted from checkpoint 2, a
3-character response).  The stop handler invokes no confirmation resolver —
the pending confirmation is dropped, never rejected — and the run still
emits `node-completed` and `run-completed`, so the cancelled run ends with
a `run-completed` terminal event rather than a Cancelled-equivalent one. -/
theorem cancelled_run_emits_run_completed :
    (stopRun (some { aborted := false, confirmations := ["confirm-1"] })).resolverCalls
        = [] ∧
    runAgentEvents 3 (some 2) =
      [.nodeStarted, .llmChunk, .nodeCompleted, .runCompleted] ∧
    RunnerEventType.runCompleted ∈ runAgentEvents 3 (some 2) := by
  refine ⟨rfl, ?_, ?_⟩ <;> decide

/-- The outcome of the `appendAuditLog` call inside a handler: the write
either succeeds or throws (e.g. a SQLite error). -/
inductive AuditWrite where
  | succeeds : AuditWrite
  | throwing (msg : String) : AuditWrite

structure StartOutcome where
  response : Except String Bool
  events : List RunnerEventType
  runInvoked : Bool

/-- The `RUNNER_START` handler: looks up the agent, registers the run,
emits `run-started`, and — when the agent has auditing enabled — calls
`appendAuditLog` inside the same `try` block, so a throwing audit write is
caught by the handler's `catch`, which returns an error response before
`runAgent` is ever invoked. -/
def runnerStart (agentFound auditEnabled : Bool) (auditWrite : AuditWrite) :
    StartOutcome :=
  if agentFound = false then
    { response := .error "Agent not found", events := [], runInvoked := false }
  else
    match auditEnabled, auditWrite with
    | true, .throwing m =>
        { response := .error m, events := [.runStarted], runInvoked := false }
    | _, _ =>
        { response := .ok true, events := [.runStarted], runInvoked := true }

/-- C7 evaluated at the failing input: with auditing enabled, a throwing
`appendAuditLog` at `run-started` makes the start handler return an error
and `runAgent` is never invoked — the audit failure aborts the run instead
of being best-effort. -/
theorem audit_failure_aborts_run_start :
    runnerStart true true (.throwing "SqliteError: database or disk is full") =
      { response := .error "SqliteError: database or disk is full",
        events := [.runStarted], runInvoked := false } ∧
    (runnerStart true true (.throwing "SqliteError: database or disk is full")).runInvoked
        = false :=
  ⟨rfl, rfl⟩

/-! ## Audit log

Embedding of `appendAuditLog` (`audit.repo`): the payload is serialized
with `JSON.stringify` and truncated when longer than 10000 characters;
nothing else is done to it before the row is inserted.  (`JSON.stringify`
throwing on circular values cannot arise for inductive `Json` values, so
the `[non-serializable]` branch is not reachable in the model.) -/

inductive AuditOutcomeTag where
  | success | denied | error
deriving DecidableEq

structure AuditLogEntry where
  agentId : String
  runId : String
  eventType : String
  tool : Option String := none
  payload : Option Json := none
  outcome : AuditOutcomeTag
  errorText : Option String := none

def serializePayload (payload : Option Json) : Option String :=
  payload.map fun j =>
    let s := j.stringify
    if 10000 < s.length then s.take 10000 ++ "...[truncated]" else s

structure AuditRow where
  agent_id : String
  run_id : String
  event_type : String
  tool : Option String
  payload : Option String
  outcome : AuditOutcomeTag
  error : Option String

def appendAuditLog (e : AuditLogEntry) : AuditRow :=
  { agent_id := e.agentId, run_id := e.runId, event_type := e.eventType,
    tool := e.tool, payload := serializePayload e.payload,
    outcome := e.outcome, error := e.errorText }

/-- C8 evaluated at the failing input: an audit entry whose payload holds
an API key is stored with the secret verbatim in the serialized payload —
no secret stripping occurs, only the size cap. -/
theorem audit_payload_stores_secret_verbatim :
    (appendAuditLog
      { agentId := "agent-1", runId := "run-1", eventType := "tool-call",
        payload := some (.obj [("apiKey", .str "sk-live-secret-123")]),
        outcome := .success }).payload =
      some "\x7b\"apiKey\":\"sk-live-secret-123\"\x7d" := by
  decide

/-! ## Settings and secrets

Embedding of `settings.repo.ts` and the `SETTINGS_GET_SECRET` handler of
`settings.ipc.ts`.  The `settings` SQLite table is a key/value association
list; `dbSet` is the upsert.  Electron `safeStorage` is external: it is
modelled by its availability flag, the composite `encryptString` + base64
encode, and the composite base64 decode + `decryptString` (returning `none`
when decryption throws).  The source test `stored.startsWith('PLAIN:')` is
expressed on the string's character list. -/

abbrev SettingsTable := List (String × String)

def dbGet (table : SettingsTable) (key : String) : Option String :=
  (table.find? (fun r => r.1 == key)).map (fun r => r.2)

def dbSet (table : SettingsTable) (key value : String) : SettingsTable :=
  if (table.find? (fun r => r.1 == key)).isSome then
    table.map (fun r => if r.1 == key then (key, value) else r)
  else
    table ++ [(key, value)]

def secretNs : String := "secret:"

structure SafeStorage where
  encryptionAvailable : Bool
  encryptToBase64 : String → String
  decryptFromBase64 : String → Option String

def setSecret (st : SafeStorage) (table : SettingsTable) (key value : String) :
    SettingsTable :=
  if st.encryptionAvailable = false then
    dbSet table (secretNs ++ key) ("PLAIN:" ++ value)
  else
    dbSet table (secretNs ++ key) (st.encryptToBase64 value)

/-- `stored.startsWith('PLAIN:')`, on the character list. -/
def hasPlainMark (stored : String) : Bool :=
  stored.data.take 6 == "PLAIN:".data

def getSecret (st : SafeStorage) (table : SettingsTable) (key : String) :
    Option String :=
  match dbGet table (secretNs ++ key) with
  | none => none
  | some stored =>
      if hasPlainMark stored then some (String.mk (stored.data.drop 6))
      else if st.encryptionAvailable = false then none
      else st.decryptFromBase64 stored

inductive IpcReply (α : Type) where
  | ok (data : α) : IpcReply α
  | err (error : String) : IpcReply α
deriving DecidableEq

/-- The `SETTINGS_GET_SECRET` handler: the reply carries only the existence
boolean `value !== null`, never the secret value. -/
def handleGetSecret (st : SafeStorage) (table : SettingsTable) (key : String) :
    IpcReply Bool :=
  .ok ((getSecret st table key).isSome)

theorem dbGet_dbSet (table : SettingsTable) (key value : String) :
    dbGet (dbSet table key value) key = some value := by
  unfold dbSet
  by_cases h : (table.find? (fun r => r.1 == key)).isSome
  · simp only [if_pos h]
    induction table with
    | nil => simp [List.find?] at h
    | cons r rest ih =>
        by_cases hr : r.1 == key
        · simp [dbGet, List.find?, hr]
        · have h' : (rest.find? (fun x => x.1 == key)).isSome := by
            simpa [List.find?, hr] using h
          simpa [dbGet, List.find?, hr] using ih h'
  · simp only [if_neg h]
    induction table with
    | nil => simp [dbGet, List.find?]
    | cons r rest ih =>
        have hr : (r.1 == key) = false := by
          by_contra hc
          simp only [List.find?] at h
          rw [Bool.not_eq_false] at hc
          simp [hc] at h
        have h' : ¬(rest.find? (fun x => x.1 == key)).isSome := by
          intro hc
          apply h
          simp [List.find?, hr, hc]
        simpa [dbGet, List.find?, hr] using ih h'

/-- C6: after storing any secret value under a key, the IPC reply for
`SETTINGS_GET_SECRET` is the constant `ok (exists := true)` — its type
carries only an existence boolean, and its value does not depend on the
stored secret, so the replies for any two stored values are identical.  The
hypothesis is the `safeStorage` contract that decryption inverts
encryption. -/
theorem get_secret_reply_reveals_only_existence (st : SafeStorage)
    (table : SettingsTable) (key v : String)
    (hrt : ∀ w, st.decryptFromBase64 (st.encryptToBase64 w) = some w) :
    handleGetSecret st (setSecret st table key v) key = .ok true := by
  unfold handleGetSecret getSecret setSecret
  by_cases hea : st.encryptionAvailable = false
  · simp only [if_pos hea, dbGet_dbSet]
    have hp : hasPlainMark ("PLAIN:" ++ v) = true := by
      simp [hasPlainMark, String.data_append]
    simp [hp]
  · simp only [if_neg hea, dbGet_dbSet]
    by_cases hp : hasPlainMark (st.encryptToBase64 v)
    · simp [hp]
    · simp [hp, hea, hrt v]

/-- Concrete instantiation of `get_secret_reply_reveals_only_existence`:
with trivially invertible crypto, storing two different API keys under the
same name produces the same reply. -/
theorem get_secret_reply_reveals_only_existence_witness :
    (∀ w, (⟨true, fun s => s, fun s => some s⟩ : SafeStorage).decryptFromBase64
        ((⟨true, fun s => s, fun s => some s⟩ : SafeStorage).encryptToBase64 w) = some w) ∧
    handleGetSecret ⟨true, fun s => s, fun s => some s⟩
      (setSecret ⟨true, fun s => s, fun s => some s⟩ [] "anthropic" "sk-key-one")
      "anthropic" = .ok true ∧
    handleGetSecret ⟨true, fun s => s, fun s => some s⟩
      (setSecret ⟨true, fun s => s, fun s => some s⟩ [] "anthropic" "sk-key-two")
      "anthropic" = .ok true :=
  ⟨fun _ => rfl,
    get_secret_reply_reveals_only_existence ⟨true, fun s => s, fun s => some s⟩ []
      "anthropic" "sk-key-one" (fun _ => rfl),
    get_secret_reply_reveals_only_existence ⟨true, fun s => s, fun s => some s⟩ []
      "anthropic" "sk-key-two" (fun _ => rfl)⟩

/-! ## Agent definitions

Embedding of `provider.schema.ts` and `agent.schema.ts`: the provider
configuration, the node graph, code blocks and the top-level agent
definition.  JS numbers are modelled as integers (`temperature` and canvas
positions included); none of the verified properties depends on fractional
values.  The serialized form is modelled at the `Json`-value level:
`JSON.parse` of `JSON.stringify(agent)` recovers exactly the encoded value,
a property of the JSON format rather than of the repository, so the export
and the re-import are related through `Json` values.  `JSON.stringify` omits
`undefined` properties, so optional fields encode to an absent binding. -/

inductive ProviderConfig where
  | anthropic (model apiKeyRef : String) (maxTokens : Nat) (temperature : Int) :
      ProviderConfig
  | openai (model apiKeyRef : String) (baseUrl : Option String) (maxTokens : Nat)
      (temperature : Int) : ProviderConfig
  | ollama (model baseUrl : String) (maxTokens : Nat) (temperature : Int) : ProviderConfig
  | custom (model baseUrl : String) (apiKeyRef : Option String)
      (headers : Option (List (String × String))) (maxTokens : Nat) (temperature : Int) :
      ProviderConfig
deriving DecidableEq

inductive NodeType where
  | input | output | llmCall | toolCall | codeBlock | condition | transform
deriving DecidableEq

def NodeType.toTag : NodeType → String
  | .input => "input"
  | .output => "output"
  | .llmCall => "llm-call"
  | .toolCall => "tool-call"
  | .codeBlock => "code-block"
  | .condition => "condition"
  | .transform => "transform"

def NodeType.ofTag (s : String) : Option NodeType :=
  if s == "input" then some .input
  else if s == "output" then some .output
  else if s == "llm-call" then some .llmCall
  else if s == "tool-call" then some .toolCall
  else if s == "code-block" then some .codeBlock
  else if s == "condition" then some .condition
  else if s == "transform" then some .transform
  else none

def HttpMethod.toTag : HttpMethod → String
  | .GET => "GET"
  | .POST => "POST"
  | .PUT => "PUT"
  | .PATCH => "PATCH"
  | .DELETE => "DELETE"
  | .HEAD => "HEAD"

def HttpMethod.ofTag (s : String) : Option HttpMethod :=
  if s == "GET" then some .GET
  else if s == "POST" then some .POST
  else if s == "PUT" then some .PUT
  else if s == "PATCH" then some .PATCH
  else if s == "DELETE" then some .DELETE
  else if s == "HEAD" then some .HEAD
  else none

def FsAccess.toTag : FsAccess → String
  | .read => "read"
  | .readWrite => "read-write"

def FsAccess.ofTag (s : String) : Option FsAccess :=
  if s == "read" then some .read
  else if s == "read-write" then some .readWrite
  else none

structure Position where
  x : Int
  y : Int
deriving DecidableEq

structure GraphNode where
  id : String
  type : NodeType
  position : Position
  data : List (String × Json)

structure GraphEdge where
  id : String
  source : String
  sourceHandle : Option String
  target : String
  targetHandle : Option String
  label : Option String
deriving DecidableEq

structure Graph where
  nodes : List GraphNode
  edges : List GraphEdge

structure CodeBlock where
  id : String
  name : String
  description : String
  code : String
  inputSchema : String
  graphPosition : Option Position
  createdAt : String
  updatedAt : String
deriving DecidableEq

structure AgentDefinition where
  id : String
  version : Nat
  name : String
  description : String
  createdAt : String
  updatedAt : String
  provider : ProviderConfig
  systemPrompt : String
  graph : Graph
  codeBlocks : List CodeBlock
  permissions : ToolPermissions
  tags : List String
  auditEnabled : Bool

/-! ### Encoding to JSON -/

def encodeOptStr (key : String) : Option String → List (String × Json)
  | none => []
  | some s => [(key, .str s)]

def encodeHeaders (hs : List (String × String)) : Json :=
  .obj (hs.map (fun h => (h.1, .str h.2)))

def encodeProvider : ProviderConfig → Json
  | .anthropic model apiKeyRef maxTokens temperature =>
      .obj [("provider", .str "anthropic"), ("model", .str model),
            ("apiKeyRef", .str apiKeyRef), ("maxTokens", .num (Int.ofNat maxTokens)),
            ("temperature", .num temperature)]
  | .openai model apiKeyRef baseUrl maxTokens temperature =>
      .obj ([("provider", .str "openai"), ("model", .str model),
             ("apiKeyRef", .str apiKeyRef)] ++ encodeOptStr "baseUrl" baseUrl ++
            [("maxTokens", .num (Int.ofNat maxTokens)), ("temperature", .num temperature)])
  | .ollama model baseUrl maxTokens temperature =>
      .obj [("provider", .str "ollama"), ("model", .str model), ("baseUrl", .str baseUrl),
            ("maxTokens", .num (Int.ofNat maxTokens)), ("temperature", .num temperature)]
  | .custom model baseUrl apiKeyRef headers maxTokens temperature =>
      .obj ([("provider", .str "custom"), ("model", .str model), ("baseUrl", .str baseUrl)]
            ++ encodeOptStr "apiKeyRef" apiKeyRef ++
            (match headers with
             | none => []
             | some hs => [("headers", encodeHeaders hs)]) ++
            [("maxTokens", .num (Int.ofNat maxTokens)), ("temperature", .num temperature)])

def encodePosition (p : Position) : Json :=
  .obj [("x", .num p.x), ("y", .num p.y)]

def encodeNode (n : GraphNode) : Json :=
  .obj [("id", .str n.id), ("type", .str n.type.toTag),
        ("position", encodePosition n.position), ("data", .obj n.data)]

def encodeEdge (e : GraphEdge) : Json :=
  .obj ([("id", .str e.id), ("source", .str e.source)] ++
        encodeOptStr "sourceHandle" e.sourceHandle ++
        [("target", .str e.target)] ++
        encodeOptStr "targetHandle" e.targetHandle ++
        encodeOptStr "label" e.label)

def encodeCodeBlock (b : CodeBlock) : Json :=
  .obj ([("id", .str b.id), ("name", .str b.name), ("description", .str b.description),
         ("code", .str b.code), ("inputSchema", .str b.inputSchema)] ++
        (match b.graphPosition with
         | none => []
         | some p => [("graphPosition", encodePosition p)]) ++
        [("createdAt", .str b.createdAt), ("updatedAt", .str b.updatedAt)])

def encodeFsPermission (f : FileSystemPermission) : Json :=
  .obj [("enabled", .bool f.enabled),
        ("access", .str f.access.toTag),
        ("allowedPaths", .arr (f.allowedPaths.map Json.str)),
        ("deniedPaths", .arr (f.deniedPaths.map Json.str)),
        ("maxFileSizeBytes", .num (Int.ofNat f.maxFileSizeBytes))]

def encodeHttpPermission (h : HttpPermission) : Json :=
  .obj [("enabled", .bool h.enabled),
        ("allowedDomains", .arr (h.allowedDomains.map Json.str)),
        ("blockedDomains", .arr (h.blockedDomains.map Json.str)),
        ("allowedMethods", .arr (h.allowedMethods.map (fun m => Json.str m.toTag))),
        ("rateLimitPerMinute", .num (Int.ofNat h.rateLimitPerMinute)),
        ("timeoutMs", .num (Int.ofNat h.timeoutMs)),
        ("followRedirects", .bool h.followRedirects),
        ("maxResponseBytes", .num (Int.ofNat h.maxResponseBytes))]

def encodeShellPermission (s : ShellPermission) : Json :=
  .obj ([("enabled", .bool s.enabled),
         ("allowedCommands", .arr (s.allowedCommands.map Json.str)),
         ("blockedPatterns", .arr (s.blockedPatterns.map Json.str))] ++
        encodeOptStr "workingDirectory" s.workingDirectory ++
        [("timeoutMs", .num (Int.ofNat s.timeoutMs)),
         ("requiresConfirmation", .bool s.requiresConfirmation),
         ("env", encodeHeaders s.env)])

def encodeCodeExecPermission (c : CodeExecPermission) : Json :=
  .obj [("enabled", .bool c.enabled),
        ("memoryLimitMb", .num (Int.ofNat c.memoryLimitMb)),
        ("timeLimitMs", .num (Int.ofNat c.timeLimitMs)),
        ("networkAccess", .bool c.networkAccess),
        ("allowedModules", .arr (c.allowedModules.map Json.str))]

def encodePermissions (p : ToolPermissions) : Json :=
  .obj [("filesystem", encodeFsPermission p.filesystem),
        ("http", encodeHttpPermission p.http),
        ("shell", encodeShellPermission p.shell),
        ("codeExec", encodeCodeExecPermission p.codeExec)]

def agentFields (a : AgentDefinition) : List (String × Json) :=
  [("id", .str a.id), ("version", .num (Int.ofNat a.version)),
        ("name", .str a.name), ("description", .str a.description),
        ("createdAt", .str a.createdAt), ("updatedAt", .str a.updatedAt),
        ("provider", encodeProvider a.provider), ("systemPrompt", .str a.systemPrompt),
        ("graph", .obj [("nodes", .arr (a.graph.nodes.map encodeNode)),
                        ("edges", .arr (a.graph.edges.map encodeEdge))]),
        ("codeBlocks", .arr (a.codeBlocks.map encodeCodeBlock)),
        ("permissions", encodePermissions a.permissions),
        ("tags", .arr (a.tags.map Json.str)),
        ("auditEnabled", .bool a.auditEnabled)]

def encodeAgent (a : AgentDefinition) : Json :=
  .obj (agentFields a)

/-! ### Decoding from JSON

`AgentDefinitionSchema.parse` is split into a structural decoding pass and
a separate refinement pass (`validAgent` below): zod checks both at once,
but on the complete objects produced by export the two passes together are
its behavior.  Missing-field defaulting is not modelled: exported agents
always carry every field. -/

def decodeList (dec : Json → Option α) : List Json → Option (List α)
  | [] => some []
  | j :: rest =>
      match dec j with
      | none => none
      | some x =>
          match decodeList dec rest with
          | none => none
          | some xs => some (x :: xs)

def decodeStrJson : Json → Option String
  | .str s => some s
  | _ => none

def decodeOptStr : Option Json → Option (Option String)
  | none => some none
  | some (.str s) => some (some s)
  | some _ => none

def decodeHeaders : List (String × Json) → Option (List (String × String))
  | [] => some []
  | (k, .str v) :: rest => (decodeHeaders rest).map (fun hs => (k, v) :: hs)
  | _ => none

def decodeProvider (j : Json) : Option ProviderConfig :=
  match j with
  | .obj fs =>
      match lookupField fs "provider" with
      | some (.str "anthropic") =>
          match lookupField fs "model", lookupField fs "apiKeyRef",
                lookupField fs "maxTokens", lookupField fs "temperature" with
          | some (.str model), some (.str ref), some (.num (.ofNat mt)), some (.num t) =>
              some (.anthropic model ref mt t)
          | _, _, _, _ => none
      | some (.str "openai") =>
          match lookupField fs "model", lookupField fs "apiKeyRef",
                decodeOptStr (lookupField fs "baseUrl"),
                lookupField fs "maxTokens", lookupField fs "temperature" with
          | some (.str model), some (.str ref), some baseUrl, some (.num (.ofNat mt)),
            some (.num t) =>
              some (.openai model ref baseUrl mt t)
          | _, _, _, _, _ => none
      | some (.str "ollama") =>
          match lookupField fs "model", lookupField fs "baseUrl",
                lookupField fs "maxTokens", lookupField fs "temperature" with
          | some (.str model), some (.str baseUrl), some (.num (.ofNat mt)),
            some (.num t) =>
              some (.ollama model baseUrl mt t)
          | _, _, _, _ => none
      | some (.str "custom") =>
          match lookupField fs "model", lookupField fs "baseUrl",
                decodeOptStr (lookupField fs "apiKeyRef"),
                (match lookupField fs "headers" with
                 | none => some none
                 | some (.obj hfs) => (decodeHeaders hfs).map some
                 | some _ => none),
                lookupField fs "maxTokens", lookupField fs "temperature" with
          | some (.str model), some (.str baseUrl), some ref, some headers,
            some (.num (.ofNat mt)), some (.num t) =>
              some (.custom model baseUrl ref headers mt t)
          | _, _, _, _, _, _ => none
      | _ => none
  | _ => none

def decodePosition (j : Json) : Option Position :=
  match j with
  | .obj fs =>
      match lookupField fs "x", lookupField fs "y" with
      | some (.num x), some (.num y) => some { x := x, y := y }
      | _, _ => none
  | _ => none

def decodeNode (j : Json) : Option GraphNode :=
  match j with
  | .obj fs =>
      match lookupField fs "id", lookupField fs "type", lookupField fs "position",
            lookupField fs "data" with
      | some (.str id), some (.str tag), some pj, some (.obj data) =>
          match NodeType.ofTag tag, decodePosition pj with
          | some t, some pos =>
              some { id := id, type := t, position := pos, data := data }
          | _, _ => none
      | _, _, _, _ => none
  | _ => none

def decodeEdge (j : Json) : Option GraphEdge :=
  match j with
  | .obj fs =>
      match lookupField fs "id", lookupField fs "source",
            decodeOptStr (lookupField fs "sourceHandle"), lookupField fs "target",
            decodeOptStr (lookupField fs "targetHandle"),
            decodeOptStr (lookupField fs "label") with
      | some (.str id), some (.str src), some sh, some (.str tgt), some th, some lb =>
          some { id := id, source := src, sourceHandle := sh, target := tgt,
                 targetHandle := th, label := lb }
      | _, _, _, _, _, _ => none
  | _ => none

def decodeCodeBlock (j : Json) : Option CodeBlock :=
  match j with
  | .obj fs =>
      match lookupField fs "id", lookupField fs "name", lookupField fs "description",
            lookupField fs "code", lookupField fs "inputSchema",
            (match lookupField fs "graphPosition" with
             | none => some none
             | some pj => (decodePosition pj).map some),
            lookupField fs "createdAt", lookupField fs "updatedAt" with
      | some (.str id), some (.str name), some (.str descr), some (.str code),
        some (.str inputSchema), some gp, some (.str ca), some (.str ua) =>
          some { id := id, name := name, description := descr, code := code,
                 inputSchema := inputSchema, graphPosition := gp, createdAt := ca,
                 updatedAt := ua }
      | _, _, _, _, _, _, _, _ => none
  | _ => none

def decodeFsPermission (j : Json) : Option FileSystemPermission :=
  match j with
  | .obj fs =>
      match lookupField fs "enabled", lookupField fs "access",
            lookupField fs "allowedPaths", lookupField fs "deniedPaths",
            lookupField fs "maxFileSizeBytes" with
      | some (.bool en), some (.str acc), some (.arr aps), some (.arr dps),
        some (.num (.ofNat mx)) =>
          match FsAccess.ofTag acc, decodeList decodeStrJson aps,
                decodeList decodeStrJson dps with
          | some access, some allowed, some denied =>
              some { enabled := en, access := access, allowedPaths := allowed,
                     deniedPaths := denied, maxFileSizeBytes := mx }
          | _, _, _ => none
      | _, _, _, _, _ => none
  | _ => none

def decodeMethod : Json → Option HttpMethod
  | .str s => HttpMethod.ofTag s
  | _ => none

def decodeHttpPermission (j : Json) : Option HttpPermission :=
  match j with
  | .obj fs =>
      match lookupField fs "enabled", lookupField fs "allowedDomains",
            lookupField fs "blockedDomains", lookupField fs "allowedMethods",
            lookupField fs "rateLimitPerMinute", lookupField fs "timeoutMs",
            lookupField fs "followRedirects", lookupField fs "maxResponseBytes" with
      | some (.bool en), some (.arr ads), some (.arr bds), some (.arr ams),
        some (.num (.ofNat rl)), some (.num (.ofNat tm)), some (.bool fr),
        some (.num (.ofNat mr)) =>
          match decodeList decodeStrJson ads, decodeList decodeStrJson bds,
                decodeList decodeMethod ams with
          | some allowed, some blocked, some methods =>
              some { enabled := en, allowedDomains := allowed, blockedDomains := blocked,
                     allowedMethods := methods, rateLimitPerMinute := rl, timeoutMs := tm,
                     followRedirects := fr, maxResponseBytes := mr }
          | _, _, _ => none
      | _, _, _, _, _, _, _, _ => none
  | _ => none

def decodeShellPermission (j : Json) : Option ShellPermission :=
  match j with
  | .obj fs =>
      match lookupField fs "enabled", lookupField fs "allowedCommands",
            lookupField fs "blockedPatterns",
            decodeOptStr (lookupField fs "workingDirectory"),
            lookupField fs "timeoutMs", lookupField fs "requiresConfirmation",
            lookupField fs "env" with
      | some (.bool en), some (.arr acs), some (.arr bps), some wd,
        some (.num (.ofNat tm)), some (.bool rc), some (.obj efs) =>
          match decodeList decodeStrJson acs, decodeList decodeStrJson bps,
                decodeHeaders efs with
          | some allowed, some blocked, some env =>
              some { enabled := en, allowedCommands := allowed, blockedPatterns := blocked,
                     workingDirectory := wd, timeoutMs := tm, requiresConfirmation := rc,
                     env := env }
          | _, _, _ => none
      | _, _, _, _, _, _, _ => none
  | _ => none

def decodeCodeExecPermission (j : Json) : Option CodeExecPermission :=
  match j with
  | .obj fs =>
      match lookupField fs "enabled", lookupField fs "memoryLimitMb",
            lookupField fs "timeLimitMs", lookupField fs "networkAccess",
            lookupField fs "allowedModules" with
      | some (.bool en), some (.num (.ofNat mm)), some (.num (.ofNat tl)),
        some (.bool na), some (.arr ams) =>
          match decodeList decodeStrJson ams with
          | some modules =>
              some { enabled := en, memoryLimitMb := mm, timeLimitMs := tl,
                     networkAccess := na, allowedModules := modules }
          | none => none
      | _, _, _, _, _ => none
  | _ => none

def decodePermissions (j : Json) : Option ToolPermissions :=
  match j with
  | .obj fs =>
      match lookupField fs "filesystem", lookupField fs "http", lookupField fs "shell",
            lookupField fs "codeExec" with
      | some fj, some hj, some sj, some cj =>
          match decodeFsPermission fj, decodeHttpPermission hj, decodeShellPermission sj,
                decodeCodeExecPermission cj with
          | some f, some h, some s, some c =>
              some { filesystem := f, http := h, shell := s, codeExec := c }
          | _, _, _, _ => none
      | _, _, _, _ => none
  | _ => none

def decodeAgent (j : Json) : Option AgentDefinition :=
  match j with
  | .obj fs =>
      match lookupField fs "id", lookupField fs "version", lookupField fs "name",
            lookupField fs "description", lookupField fs "createdAt",
            lookupField fs "updatedAt", lookupField fs "provider",
            lookupField fs "systemPrompt", lookupField fs "graph",
            lookupField fs "codeBlocks", lookupField fs "permissions",
            lookupField fs "tags", lookupField fs "auditEnabled" with
      | some (.str id), some (.num (.ofNat version)), some (.str name),
        some (.str descr), some (.str ca), some (.str ua), some pj, some (.str sp),
        some (.obj gfs), some (.arr bjs), some permj, some (.arr tjs),
        some (.bool ae) =>
          match lookupField gfs "nodes", lookupField gfs "edges" with
          | some (.arr njs), some (.arr ejs) =>
              match decodeProvider pj, decodeList decodeNode njs,
                    decodeList decodeEdge ejs, decodeList decodeCodeBlock bjs,
                    decodePermissions permj, decodeList decodeStrJson tjs with
              | some provider, some nodes, some edges, some blocks, some perms,
                some tags =>
                  some { id := id, version := version, name := name,
                         description := descr, createdAt := ca, updatedAt := ua,
                         provider := provider, systemPrompt := sp,
                         graph := { nodes := nodes, edges := edges },
                         codeBlocks := blocks, permissions := perms, tags := tags,
                         auditEnabled := ae }
              | _, _, _, _, _, _ => none
          | _, _ => none
      | _, _, _, _, _, _, _, _, _, _, _, _, _ => none
  | _ => none

/-! ### Round-trip lemmas for the encoders and decoders -/

theorem decodeList_map (dec : Json → Option α) (enc : α → Json)
    (h : ∀ x, dec (enc x) = some x) (xs : List α) :
    decodeList dec (xs.map enc) = some xs := by
  induction xs with
  | nil => rfl
  | cons x rest ih => simp [List.map, decodeList, h x, ih]

theorem decodeHeaders_encode (hs : List (String × String)) :
    decodeHeaders (hs.map (fun h => (h.1, Json.str h.2))) = some hs := by
  induction hs with
  | nil => rfl
  | cons h rest ih =>
      obtain ⟨k, v⟩ := h
      simp [List.map, decodeHeaders, ih]

theorem nodeTypeTag_roundtrip (t : NodeType) : NodeType.ofTag t.toTag = some t := by
  cases t <;> rfl

theorem httpMethodTag_roundtrip (m : HttpMethod) : HttpMethod.ofTag m.toTag = some m := by
  cases m <;> rfl

theorem fsAccessTag_roundtrip (a : FsAccess) : FsAccess.ofTag a.toTag = some a := by
  cases a <;> rfl

theorem decodePosition_encode (p : Position) :
    decodePosition (encodePosition p) = some p := rfl

theorem decodeProvider_encode (p : ProviderConfig) :
    decodeProvider (encodeProvider p) = some p := by
  cases p with
  | anthropic model ref mt t => rfl
  | openai model ref baseUrl mt t => cases baseUrl <;> rfl
  | ollama model baseUrl mt t => rfl
  | custom model baseUrl ref headers mt t =>
      cases ref <;> cases headers <;>
        simp [encodeProvider, decodeProvider, encodeHeaders, decodeHeaders_encode,
          decodeOptStr, encodeOptStr, lookupField, List.find?]

theorem decodeNode_encode (n : GraphNode) : decodeNode (encodeNode n) = some n := by
  obtain ⟨id, t, pos, data⟩ := n
  simp [encodeNode, decodeNode, lookupField, List.find?, nodeTypeTag_roundtrip,
    decodePosition_encode]

theorem decodeEdge_encode (e : GraphEdge) : decodeEdge (encodeEdge e) = some e := by
  obtain ⟨id, src, sh, tgt, th, lb⟩ := e
  cases sh <;> cases th <;> cases lb <;> rfl

theorem decodeCodeBlock_encode (b : CodeBlock) :
    decodeCodeBlock (encodeCodeBlock b) = some b := by
  obtain ⟨id, name, descr, code, is, gp, ca, ua⟩ := b
  cases gp <;> rfl

theorem decodeStrList (xs : List String) :
    decodeList decodeStrJson (xs.map Json.str) = some xs :=
  decodeList_map decodeStrJson Json.str (fun _ => rfl) xs

theorem decodeMethodList (ms : List HttpMethod) :
    decodeList decodeMethod (ms.map (fun m => Json.str m.toTag)) = some ms :=
  decodeList_map decodeMethod (fun m => Json.str m.toTag)
    (fun m => by simp [decodeMethod, httpMethodTag_roundtrip]) ms

theorem decodeFsPermission_encode (f : FileSystemPermission) :
    decodeFsPermission (encodeFsPermission f) = some f := by
  obtain ⟨en, acc, ap, dp, mx⟩ := f
  simp [encodeFsPermission, decodeFsPermission, lookupField, List.find?,
    fsAccessTag_roundtrip, decodeStrList]

theorem decodeHttpPermission_encode (h : HttpPermission) :
    decodeHttpPermission (encodeHttpPermission h) = some h := by
  obtain ⟨en, ad, bd, am, rl, tm, fr, mr⟩ := h
  simp [encodeHttpPermission, decodeHttpPermission, lookupField, List.find?,
    decodeStrList, decodeMethodList]

theorem decodeShellPermission_encode (s : ShellPermission) :
    decodeShellPermission (encodeShellPermission s) = some s := by
  obtain ⟨en, ac, bp, wd, tm, rc, env⟩ := s
  cases wd <;>
    simp [encodeShellPermission, decodeShellPermission, lookupField, List.find?,
      encodeOptStr, decodeOptStr, encodeHeaders, decodeHeaders_encode, decodeStrList]

theorem decodeCodeExecPermission_encode (c : CodeExecPermission) :
    decodeCodeExecPermission (encodeCodeExecPermission c) = some c := by
  obtain ⟨en, mm, tl, na, am⟩ := c
  simp [encodeCodeExecPermission, decodeCodeExecPermission, lookupField, List.find?,
    decodeStrList]

theorem decodePermissions_encode (p : ToolPermissions) :
    decodePermissions (encodePermissions p) = some p := by
  obtain ⟨f, h, s, c⟩ := p
  simp [encodePermissions, decodePermissions, lookupField, List.find?,
    decodeFsPermission_encode, decodeHttpPermission_encode, decodeShellPermission_encode,
    decodeCodeExecPermission_encode]

theorem decodeAgent_encode (a : AgentDefinition) :
    decodeAgent (encodeAgent a) = some a := by
  obtain ⟨id, version, name, descr, ca, ua, provider, sp, ⟨nodes, edges⟩, blocks, perms,
    tags, ae⟩ := a
  simp [encodeAgent, agentFields, decodeAgent, lookupField, List.find?,
    decodeProvider_encode, decodePermissions_encode, decodeStrList,
    decodeList_map decodeNode encodeNode decodeNode_encode,
    decodeList_map decodeEdge encodeEdge decodeEdge_encode,
    decodeList_map decodeCodeBlock encodeCodeBlock decodeCodeBlock_encode]

/-! ### Schema refinements, export and import

The string-format refinements of the zod schemas (uuid, ISO datetime, URL,
identifier regex) are external validators; the properties hold for every
choice of them. -/

structure SchemaChecks where
  isUuid : String → Bool
  isDatetime : String → Bool
  isUrl : String → Bool
  isIdent : String → Bool

def validProvider (c : SchemaChecks) : ProviderConfig → Bool
  | .anthropic _ ref mt _ => decide (1 ≤ ref.length) && decide (0 < mt)
  | .openai _ ref baseUrl mt _ =>
      decide (1 ≤ ref.length) &&
      (match baseUrl with | none => true | some u => c.isUrl u) && decide (0 < mt)
  | .ollama _ baseUrl mt _ => c.isUrl baseUrl && decide (0 < mt)
  | .custom model baseUrl _ _ mt _ =>
      decide (1 ≤ model.length) && c.isUrl baseUrl && decide (0 < mt)

def validCodeBlock (c : SchemaChecks) (b : CodeBlock) : Bool :=
  c.isUuid b.id && decide (1 ≤ b.name.length) && decide (b.name.length ≤ 64) &&
  c.isIdent b.name && decide (b.description.length ≤ 512) &&
  c.isDatetime b.createdAt && c.isDatetime b.updatedAt

def validPermissions (p : ToolPermissions) : Bool :=
  decide (0 < p.filesystem.maxFileSizeBytes) && decide (0 < p.http.rateLimitPerMinute) &&
  decide (0 < p.http.timeoutMs) && decide (0 < p.http.maxResponseBytes) &&
  decide (0 < p.shell.timeoutMs) && decide (0 < p.codeExec.memoryLimitMb) &&
  decide (0 < p.codeExec.timeLimitMs)

/-- The refinement part of `AgentDefinitionSchema.parse`. -/
def validAgent (c : SchemaChecks) (a : AgentDefinition) : Bool :=
  c.isUuid a.id && (a.version == 1) && decide (1 ≤ a.name.length) &&
  decide (a.name.length ≤ 128) && decide (a.description.length ≤ 1024) &&
  c.isDatetime a.createdAt && c.isDatetime a.updatedAt &&
  validProvider c a.provider && a.codeBlocks.all (validCodeBlock c) &&
  validPermissions a.permissions

/-- `exportAgent`: `JSON.stringify(agent, null, 2)`, at the `Json`-value
level (parsing the exported string recovers exactly this value). -/
def exportAgent (a : AgentDefinition) : Json :=
  encodeAgent a

/-- The identity fields regenerated by `importAgent`: a fresh uuid and the
current timestamps. -/
def withIdentity (a : AgentDefinition) (newId now : String) : AgentDefinition :=
  { a with id := newId, createdAt := now, updatedAt := now }

/-- `importAgent`: parse the JSON, spread it with a fresh `id` and fresh
`createdAt` / `updatedAt`, and validate through
`AgentDefinitionSchema.parse` (structural decoding plus refinements). -/
def importAgent (c : SchemaChecks) (j : Json) (newId now : String) :
    Option AgentDefinition :=
  match j with
  | .obj fs =>
      match decodeAgent (.obj (overrideField (overrideField (overrideField fs
          "id" (.str newId)) "createdAt" (.str now)) "updatedAt" (.str now))) with
      | none => none
      | some a => if validAgent c a then some a else none
  | _ => none

/-- C9: exporting a stored agent and re-importing the result produces an
agent equal to the original except for the regenerated identity fields
(`id`, `createdAt`, `updatedAt`) — in particular its permission model and
its graph are those of the original.  The hypothesis is that the
re-imported agent passes the refinements of the schema (zod would reject
the operation otherwise). -/
theorem importAgent_exportAgent_roundtrip (c : SchemaChecks) (a : AgentDefinition)
    (newId now : String)
    (hvalid : validAgent c (withIdentity a newId now) = true) :
    importAgent c (exportAgent a) newId now = some (withIdentity a newId now) := by
  have key : decodeAgent (.obj (overrideField (overrideField (overrideField
      (agentFields a) "id" (.str newId)) "createdAt" (.str now)) "updatedAt"
      (.str now))) = some (withIdentity a newId now) :=
    decodeAgent_encode (withIdentity a newId now)
  simp only [importAgent, exportAgent, encodeAgent]
  rw [key]
  simp [hvalid]

/-- Trivially accepting external validators. -/
def trivialChecks : SchemaChecks :=
  ⟨fun _ => true, fun _ => true, fun _ => true, fun _ => true⟩

/-- A concrete stored agent exercising every component: provider, graph,
code block, permissions and tags. -/
def sampleAgent : AgentDefinition :=
  { id := "00000000-0000-4000-8000-000000000001", version := 1, name := "My Agent",
    description := "", createdAt := "2025-01-01T00:00:00Z",
    updatedAt := "2025-01-01T00:00:00Z",
    provider := .anthropic "claude-opus-4-6" "anthropic_api_key" 4096 1,
    systemPrompt := "You are a helpful AI assistant.",
    graph :=
      { nodes := [{ id := "node-input", type := .input,
                    position := { x := 100, y := 200 },
                    data := [("variableName", .str "userMessage")] }],
        edges := [{ id := "edge-1", source := "node-input",
                    sourceHandle := some "handle-out", target := "node-llm",
                    targetHandle := none, label := none }] },
    codeBlocks := [{ id := "00000000-0000-4000-8000-000000000002", name := "runBlock",
                     description := "", code := "return input",
                     inputSchema := "z.object()", graphPosition := none,
                     createdAt := "2025-01-01T00:00:00Z",
                     updatedAt := "2025-01-01T00:00:00Z" }],
    permissions := DEFAULT_TOOL_PERMISSIONS, tags := ["demo"], auditEnabled := true }

/-- Concrete instantiation of `importAgent_exportAgent_roundtrip` on
`sampleAgent`. -/
theorem importAgent_exportAgent_roundtrip_witness :
    validAgent trivialChecks
      (withIdentity sampleAgent "00000000-0000-4000-8000-000000000009"
        "2025-02-01T00:00:00Z") = true ∧
    importAgent trivialChecks (exportAgent sampleAgent)
        "00000000-0000-4000-8000-000000000009" "2025-02-01T00:00:00Z" =
      some (withIdentity sampleAgent "00000000-0000-4000-8000-000000000009"
        "2025-02-01T00:00:00Z") :=
  ⟨by decide,
    importAgent_exportAgent_roundtrip trivialChecks sampleAgent
      "00000000-0000-4000-8000-000000000009" "2025-02-01T00:00:00Z" (by decide)⟩

/-! ### Agent update -/

/-- A partial agent: the `updates` object of `updateAgent` (every field
optional, including attempts to overwrite `id` or `version`). -/
structure AgentUpdates where
  id : Option String := none
  version : Option Nat := none
  name : Option String := none
  description : Option String := none
  createdAt : Option String := none
  updatedAt : Option String := none
  provider : Option ProviderConfig := none
  systemPrompt : Option String := none
  graph : Option Graph := none
  codeBlocks : Option (List CodeBlock) := none
  permissions : Option ToolPermissions := none
  tags : Option (List String) := none
  auditEnabled : Option Bool := none

/-- The merge in `updateAgent`: spread `existing`, spread `updates` over
it, then force `id` (the lookup key), `version: 1` and a fresh
`updatedAt` — the spread-in `updates.id`, `updates.version` and
`updates.updatedAt` are overwritten by the forced fields. -/
def mergeAgent (existing : AgentDefinition) (u : AgentUpdates) (id now : String) :
    AgentDefinition :=
  { id := id
    version := 1
    name := u.name.getD existing.name
    description := u.description.getD existing.description
    createdAt := u.createdAt.getD existing.createdAt
    updatedAt := now
    provider := u.provider.getD existing.provider
    systemPrompt := u.systemPrompt.getD existing.systemPrompt
    graph := u.graph.getD existing.graph
    codeBlocks := u.codeBlocks.getD existing.codeBlocks
    permissions := u.permissions.getD existing.permissions
    tags := u.tags.getD existing.tags
    auditEnabled := u.auditEnabled.getD existing.auditEnabled }

/-- `updateAgent(id, updates)`: look the agent up (throw if absent), merge,
validate through `AgentDefinitionSchema.parse` (throw if invalid), store
and return the merged agent. -/
def updateAgent (c : SchemaChecks) (store : String → Option AgentDefinition)
    (id : String) (u : AgentUpdates) (now : String) : Option AgentDefinition :=
  match store id with
  | none => none
  | some existing =>
      if validAgent c (mergeAgent existing u id now) then
        some (mergeAgent existing u id now)
      else none

/-- C10: whenever `updateAgent` returns a stored agent, that agent's `id`
is the id the update was addressed to (the original id), its `version` is
`1`, and its `updatedAt` is the time of the update — for every `updates`
object, including ones carrying a different `id`, `version` or
`updatedAt`. -/
theorem updateAgent_forces_identity (c : SchemaChecks)
    (store : String → Option AgentDefinition) (id : String) (u : AgentUpdates)
    (now : String) (a : AgentDefinition)
    (h : updateAgent c store id u now = some a) :
    a.id = id ∧ a.version = 1 ∧ a.updatedAt = now := by
  unfold updateAgent at h
  split at h
  · exact absurd h (by simp)
  · split at h
    · injection h with h
      subst h
      exact ⟨rfl, rfl, rfl⟩
    · exact absurd h (by simp)

/-- An updates object that tries to overwrite the identity fields. -/
def hostileUpdates : AgentUpdates :=
  { id := some "spoofed-id", version := some 99, name := some "Renamed Agent",
    updatedAt := some "1999-01-01T00:00:00Z" }

/-- Concrete instantiation of `updateAgent_forces_identity`: an update
carrying a different id, version 99 and a stale updatedAt still yields the
original id, version 1 and the fresh timestamp. -/
theorem updateAgent_forces_identity_witness :
    updateAgent trivialChecks
        (fun k => if k == "00000000-0000-4000-8000-000000000001" then some sampleAgent
                  else none)
        "00000000-0000-4000-8000-000000000001" hostileUpdates "2025-03-01T00:00:00Z" =
      some (mergeAgent sampleAgent hostileUpdates "00000000-0000-4000-8000-000000000001"
        "2025-03-01T00:00:00Z") ∧
    ((mergeAgent sampleAgent hostileUpdates "00000000-0000-4000-8000-000000000001"
        "2025-03-01T00:00:00Z").id = "00000000-0000-4000-8000-000000000001" ∧
      (mergeAgent sampleAgent hostileUpdates "00000000-0000-4000-8000-000000000001"
        "2025-03-01T00:00:00Z").version = 1 ∧
      (mergeAgent sampleAgent hostileUpdates "00000000-0000-4000-8000-000000000001"
        "2025-03-01T00:00:00Z").updatedAt = "2025-03-01T00:00:00Z") :=
  ⟨rfl,
    updateAgent_forces_identity trivialChecks
      (fun k => if k == "00000000-0000-4000-8000-000000000001" then some sampleAgent
                else none)
      "00000000-0000-4000-8000-000000000001" hostileUpdates "2025-03-01T00:00:00Z" _
      rfl⟩

end AgentBuilder
